import Mathlib

/-!
Verification of the ezdxf acc geometry kernel (CppVec3, CppCubicBezier,
CppQuadBezier and the global constants in constants.h).

The C++ code computes with IEEE-754 doubles; the claims under study are
algebraic identities, so the embedding models the arithmetic exactly.
Operations that stay inside the field operations are embedded over the
rationals, which keeps every definition computable and every concrete
statement decidable.  The two members that take a square root
(CppVec3::magnitude and CppVec3::normalize) are embedded over the reals in
a second copy of the vector structure, CppVec3R, since sqrt leaves the
rationals.  Each definition mirrors the corresponding C++ member body
statement by statement.
-/

/-- Embedding of the class CppVec3 from _cpp_vec3.hpp: a value type with
three double fields x, y, z, modelled with exact rational arithmetic. -/
@[ext]
structure CppVec3 where
  x : ℚ
  y : ℚ
  z : ℚ
deriving DecidableEq, Repr

/-- Embedding of CppVec3::operator+ (componentwise sum). -/
def CppVec3.add (a other : CppVec3) : CppVec3 :=
  ⟨a.x + other.x, a.y + other.y, a.z + other.z⟩

instance : Add CppVec3 := ⟨CppVec3.add⟩

/-- Embedding of CppVec3::operator- (componentwise difference). -/
def CppVec3.sub (a other : CppVec3) : CppVec3 :=
  ⟨a.x - other.x, a.y - other.y, a.z - other.z⟩

instance : Sub CppVec3 := ⟨CppVec3.sub⟩

/-- Embedding of CppVec3::operator* (componentwise scale by a scalar). -/
def CppVec3.smul (a : CppVec3) (factor : ℚ) : CppVec3 :=
  ⟨a.x * factor, a.y * factor, a.z * factor⟩

instance : HMul CppVec3 ℚ CppVec3 := ⟨CppVec3.smul⟩

/-- Embedding of CppVec3::magnitude_sqr. -/
def CppVec3.magnitude_sqr (a : CppVec3) : ℚ :=
  a.x * a.x + a.y * a.y + a.z * a.z

/-- Embedding of CppVec3::dot. -/
def CppVec3.dot (a other : CppVec3) : ℚ :=
  a.x * other.x + a.y * other.y + a.z * other.z

/-- Embedding of CppVec3::lerp: returns this + (other - this) * factor. -/
def CppVec3.lerp (a other : CppVec3) (factor : ℚ) : CppVec3 :=
  a + (other - a) * factor

/-- Embedding of CppVec3::isclose from _cpp_vec3.hpp lines 65-71: the
difference this - other is formed and each component of its absolute value
is compared against abs_tol only; the function is the conjunction of the
three per-axis comparisons. -/
def CppVec3.isclose (a other : CppVec3) (abs_tol : ℚ) : Bool :=
  let diff := a - other
  decide (|diff.x| ≤ abs_tol) && decide (|diff.y| ≤ abs_tol) &&
    decide (|diff.z| ≤ abs_tol)

/-- Embedding of the constant ABS_TOL from constants.h. -/
def ABS_TOL : ℚ := 1e-12

/-- Embedding of the constant REL_TOL from constants.h. -/
def REL_TOL : ℚ := 1e-9

/-- Embedding of the constant M_TAU from constants.h. -/
def M_TAU : ℚ := 6.283185307179586

/-- Embedding of the constant MAX_SPLINE_ORDER from constants.h. -/
def MAX_SPLINE_ORDER : ℤ := 12

/-- Written from the words of the spec, for comparison against the code in
claim C1: one axis passes when the absolute difference is within the
relative tolerance of either operand or within the caller supplied
absolute tolerance. -/
def specAxisClose (u v abs_tol : ℚ) : Bool :=
  decide (|u - v| ≤ REL_TOL * |v|) || decide (|u - v| ≤ REL_TOL * |u|) ||
    decide (|u - v| ≤ abs_tol)

/-- Written from the words of the spec, for comparison against the code in
claim C1: the dual tolerance approximate equality the spec prescribes for
isClose; all three axes must pass. -/
def isClose_spec (a b : CppVec3) (abs_tol : ℚ) : Bool :=
  specAxisClose a.x b.x abs_tol && specAxisClose a.y b.y abs_tol &&
    specAxisClose a.z b.z abs_tol

/-- Embedding of the class CppCubicBezier from _cpp_cubic_bezier.hpp:
four CppVec3 control points. -/
@[ext]
structure CppCubicBezier where
  p0 : CppVec3
  p1 : CppVec3
  p2 : CppVec3
  p3 : CppVec3
deriving DecidableEq, Repr

/-- Embedding of CppCubicBezier::bernstein_poly_d0: the four degree-3
Bernstein weights at t, written into weights[0..3]; modelled as a
4-tuple. -/
def CppCubicBezier.bernstein_poly_d0 (t : ℚ) : ℚ × ℚ × ℚ × ℚ :=
  let t2 := t * t
  let one_minus_t := 1 - t
  let one_minus_t_square := one_minus_t * one_minus_t
  (one_minus_t_square * one_minus_t,
   3 * one_minus_t_square * t,
   3 * one_minus_t * t2,
   t2 * t)

/-- Embedding of CppCubicBezier::bernstein_poly_d1: the derivatives of the
four degree-3 Bernstein weights at t. -/
def CppCubicBezier.bernstein_poly_d1 (t : ℚ) : ℚ × ℚ × ℚ × ℚ :=
  let t2 := t * t
  (-3 * (1 - t) * (1 - t),
   3 * (1 - 4 * t + 3 * t2),
   3 * t * (2 - 3 * t),
   3 * t2)

/-- Embedding of CppCubicBezier::point: the Bernstein weighted sum of the
four control points. -/
def CppCubicBezier.point (c : CppCubicBezier) (t : ℚ) : CppVec3 :=
  let w := CppCubicBezier.bernstein_poly_d0 t
  c.p0 * w.1 + c.p1 * w.2.1 + c.p2 * w.2.2.1 + c.p3 * w.2.2.2

/-- Embedding of CppCubicBezier::tangent: the derivative-weight sum of the
four control points. -/
def CppCubicBezier.tangent (c : CppCubicBezier) (t : ℚ) : CppVec3 :=
  let w := CppCubicBezier.bernstein_poly_d1 t
  c.p0 * w.1 + c.p1 * w.2.1 + c.p2 * w.2.2.1 + c.p3 * w.2.2.2

/-- Embedding of the class CppQuadBezier from _cpp_quad_bezier.hpp:
three CppVec3 control points. -/
@[ext]
structure CppQuadBezier where
  p0 : CppVec3
  p1 : CppVec3
  p2 : CppVec3
deriving DecidableEq, Repr

/-- Embedding of CppQuadBezier::point: weights (1-t)^2, 2t(1-t), t^2. -/
def CppQuadBezier.point (c : CppQuadBezier) (t : ℚ) : CppVec3 :=
  let one_minus_t := 1 - t
  let a := one_minus_t * one_minus_t
  let b := 2 * t * one_minus_t
  let cw := t * t
  c.p0 * a + c.p1 * b + c.p2 * cw

/-- Embedding of CppQuadBezier::tangent: weights -2(1-t), 2-4t, 2t. -/
def CppQuadBezier.tangent (c : CppQuadBezier) (t : ℚ) : CppVec3 :=
  let a := -2 * (1 - t)
  let b := 2 - 4 * t
  let cw := 2 * t
  c.p0 * a + c.p1 * b + c.p2 * cw

/-- State-passing view of a call to CppCubicBezier::point: the C++ body
reads the fields p0..p3 and assigns to no member, so the object state
after the call is the receiver itself; the pair is (return value, object
after the call). -/
def CppCubicBezier.pointSt (c : CppCubicBezier) (t : ℚ) :
    CppVec3 × CppCubicBezier :=
  (c.point t, c)

/-- State-passing view of a call to CppCubicBezier::tangent; the body
assigns to no member. -/
def CppCubicBezier.tangentSt (c : CppCubicBezier) (t : ℚ) :
    CppVec3 × CppCubicBezier :=
  (c.tangent t, c)

/-- State-passing view of a call to CppQuadBezier::point; the body
assigns to no member. -/
def CppQuadBezier.pointSt (c : CppQuadBezier) (t : ℚ) :
    CppVec3 × CppQuadBezier :=
  (c.point t, c)

/-- State-passing view of a call to CppQuadBezier::tangent; the body
assigns to no member. -/
def CppQuadBezier.tangentSt (c : CppQuadBezier) (t : ℚ) :
    CppVec3 × CppQuadBezier :=
  (c.tangent t, c)

/-- Real-arithmetic embedding of CppVec3, used for the members that take a
square root (magnitude, normalize): the fields are real numbers. -/
@[ext]
structure CppVec3R where
  x : ℝ
  y : ℝ
  z : ℝ

/-- Embedding of CppVec3::operator* over the reals. -/
def CppVec3R.smul (a : CppVec3R) (factor : ℝ) : CppVec3R :=
  ⟨a.x * factor, a.y * factor, a.z * factor⟩

instance : HMul CppVec3R ℝ CppVec3R := ⟨CppVec3R.smul⟩

/-- Embedding of CppVec3::magnitude: sqrt(x*x + y*y + z*z). -/
noncomputable def CppVec3R.magnitude (a : CppVec3R) : ℝ :=
  Real.sqrt (a.x * a.x + a.y * a.y + a.z * a.z)

/-- Embedding of CppVec3::normalize from _cpp_vec3.hpp lines 39-43: the
magnitude is computed; when it is exactly 0.0 the receiver is returned
unchanged, otherwise the receiver scaled by length / magnitude. -/
noncomputable def CppVec3R.normalize (a : CppVec3R) (length : ℝ) : CppVec3R :=
  let mag := a.magnitude
  if mag = 0 then a else a * (length / mag)

/-! Component projection lemmas for the vector operations. -/

@[simp]
theorem CppVec3.add_x (a b : CppVec3) : (a + b).x = a.x + b.x := rfl

@[simp]
theorem CppVec3.add_y (a b : CppVec3) : (a + b).y = a.y + b.y := rfl

@[simp]
theorem CppVec3.add_z (a b : CppVec3) : (a + b).z = a.z + b.z := rfl

@[simp]
theorem CppVec3.sub_x (a b : CppVec3) : (a - b).x = a.x - b.x := rfl

@[simp]
theorem CppVec3.sub_y (a b : CppVec3) : (a - b).y = a.y - b.y := rfl

@[simp]
theorem CppVec3.sub_z (a b : CppVec3) : (a - b).z = a.z - b.z := rfl

@[simp]
theorem CppVec3.smul_x (a : CppVec3) (f : ℚ) : (a * f).x = a.x * f := rfl

@[simp]
theorem CppVec3.smul_y (a : CppVec3) (f : ℚ) : (a * f).y = a.y * f := rfl

@[simp]
theorem CppVec3.smul_z (a : CppVec3) (f : ℚ) : (a * f).z = a.z * f := rfl

@[simp]
theorem CppVec3R.rsmul_x (a : CppVec3R) (f : ℝ) : (a * f).x = a.x * f := rfl

@[simp]
theorem CppVec3R.rsmul_y (a : CppVec3R) (f : ℝ) : (a * f).y = a.y * f := rfl

@[simp]
theorem CppVec3R.rsmul_z (a : CppVec3R) (f : ℝ) : (a * f).z = a.z * f := rfl

/-- Claim C9: the global constants of constants.h have exactly the values
the spec fixes: the absolute tolerance is 1e-12, the relative tolerance is
1e-9, the tau constant is 6.283185307179586 and the maximum spline order
is 12. -/
theorem constants_have_spec_values :
    ABS_TOL = 1 / 10 ^ 12 ∧ REL_TOL = 1 / 10 ^ 9 ∧
      M_TAU = 6283185307179586 / 10 ^ 15 ∧ MAX_SPLINE_ORDER = 12 := by
  refine ⟨?_, ?_, ?_, rfl⟩ <;> norm_num [ABS_TOL, REL_TOL, M_TAU]

/-- Claim C1, amended: CppVec3::isclose returns true if and only if on
each of the three axes the absolute componentwise difference is at most
the caller supplied absolute tolerance; the code applies no
relative-tolerance test at all. -/
theorem isclose_iff_abs_tol_all_axes (a b : CppVec3) (abs_tol : ℚ) :
    a.isclose b abs_tol = true ↔
      |a.x - b.x| ≤ abs_tol ∧ |a.y - b.y| ≤ abs_tol ∧ |a.z - b.z| ≤ abs_tol := by
  simp [CppVec3.isclose, and_assoc]

/-- Claim C1, counterexample: at a = (2, 0, 0), b = (2 + 2e-9, 0, 0) and
absolute tolerance 0, the dual-tolerance rule of the spec accepts the pair
on the x axis through the relative term, but the code rejects it, so the
claimed equivalence between isclose and the spec rule is false. -/
theorem isclose_dual_tolerance_rule_false :
    ¬ (CppVec3.isclose ⟨2, 0, 0⟩ ⟨2 + 2 / 10 ^ 9, 0, 0⟩ 0 = true ↔
        isClose_spec ⟨2, 0, 0⟩ ⟨2 + 2 / 10 ^ 9, 0, 0⟩ 0 = true) := by
  have hcode : ¬ (CppVec3.isclose ⟨2, 0, 0⟩ ⟨2 + 2 / 10 ^ 9, 0, 0⟩ 0 = true) := by
    simp only [CppVec3.isclose, CppVec3.sub_x, CppVec3.sub_y, CppVec3.sub_z,
      Bool.and_eq_true, decide_eq_true_eq, not_and]
    intro hx
    norm_num [abs_sub_comm (2 : ℚ), abs_of_nonneg] at hx
  have hspec : isClose_spec ⟨2, 0, 0⟩ ⟨2 + 2 / 10 ^ 9, 0, 0⟩ 0 = true := by
    simp only [isClose_spec, specAxisClose, REL_TOL, Bool.and_eq_true,
      Bool.or_eq_true, decide_eq_true_eq]
    norm_num [abs_sub_comm (2 : ℚ), abs_of_nonneg]
  intro h
  exact hcode (h.mpr hspec)

/-- Claim C10: isclose as implemented is symmetric: swapping the two
vectors never changes the result, because each axis compares only the
absolute value of the componentwise difference against the tolerance. -/
theorem isclose_symm (a b : CppVec3) (abs_tol : ℚ) :
    a.isclose b abs_tol = b.isclose a abs_tol := by
  simp only [CppVec3.isclose, CppVec3.sub_x, CppVec3.sub_y, CppVec3.sub_z]
  rw [Bool.eq_iff_iff]
  simp only [Bool.and_eq_true, decide_eq_true_eq]
  rw [abs_sub_comm a.x b.x, abs_sub_comm a.y b.y, abs_sub_comm a.z b.z]

/-- Claim C2: for every set of control points the cubic evaluator returns
p0 at t = 0 and p3 at t = 1, and the quadratic evaluator returns p0 at
t = 0 and p2 at t = 1; the Bernstein weights reduce to exactly 0 and 1 at
the parameter bounds. -/
theorem bezier_point_endpoint_property (c : CppCubicBezier) (q : CppQuadBezier) :
    c.point 0 = c.p0 ∧ c.point 1 = c.p3 ∧ q.point 0 = q.p0 ∧ q.point 1 = q.p2 := by
  refine ⟨?_, ?_, ?_, ?_⟩ <;>
    · ext <;>
        simp [CppCubicBezier.point, CppCubicBezier.bernstein_poly_d0,
          CppQuadBezier.point] <;>
        ring

/-- Claim C4, amended: for every cubic curve and parameter the evaluator
returns the degree-3 Bernstein weighted sum of the control points; at
t = 1/2 the weights are (1/8, 3/8, 3/8, 1/8) and the concrete curve with
control points (0,0,0), (0,1,0), (1,1,0), (1,0,0) evaluates to
(1/2, 3/4, 0). -/
theorem cubic_point_bernstein_formula :
    (∀ (c : CppCubicBezier) (t : ℚ),
        c.point t =
          c.p0 * ((1 - t) ^ 3) + c.p1 * (3 * (1 - t) ^ 2 * t) +
            c.p2 * (3 * (1 - t) * t ^ 2) + c.p3 * (t ^ 3)) ∧
      CppCubicBezier.bernstein_poly_d0 (1 / 2) = (1 / 8, 3 / 8, 3 / 8, 1 / 8) ∧
      CppCubicBezier.point ⟨⟨0, 0, 0⟩, ⟨0, 1, 0⟩, ⟨1, 1, 0⟩, ⟨1, 0, 0⟩⟩ (1 / 2) =
        ⟨1 / 2, 3 / 4, 0⟩ := by
  refine ⟨?_, ?_, ?_⟩
  · intro c t
    ext <;>
      simp [CppCubicBezier.point, CppCubicBezier.bernstein_poly_d0] <;> ring
  · norm_num [CppCubicBezier.bernstein_poly_d0, Prod.ext_iff]
  · ext <;>
      simp [CppCubicBezier.point, CppCubicBezier.bernstein_poly_d0] <;> norm_num

/-- Claim C4, counterexample: the concrete scenario value the claim gives
is wrong: the cubic with control points (0,0,0), (0,1,0), (1,1,0),
(1,0,0) evaluates at t = 1/2 to (1/2, 3/4, 0), whose x component is
3/8 + 1/8 = 1/2, not to (3/4, 3/4, 0). -/
theorem cubic_point_concrete_value_counterexample :
    CppCubicBezier.point ⟨⟨0, 0, 0⟩, ⟨0, 1, 0⟩, ⟨1, 1, 0⟩, ⟨1, 0, 0⟩⟩ (1 / 2) =
        ⟨1 / 2, 3 / 4, 0⟩ ∧
      CppCubicBezier.point ⟨⟨0, 0, 0⟩, ⟨0, 1, 0⟩, ⟨1, 1, 0⟩, ⟨1, 0, 0⟩⟩ (1 / 2) ≠
        ⟨3 / 4, 3 / 4, 0⟩ := by
  have hval :
      CppCubicBezier.point ⟨⟨0, 0, 0⟩, ⟨0, 1, 0⟩, ⟨1, 1, 0⟩, ⟨1, 0, 0⟩⟩ (1 / 2) =
        ⟨1 / 2, 3 / 4, 0⟩ := by
    ext <;>
      simp [CppCubicBezier.point, CppCubicBezier.bernstein_poly_d0] <;> norm_num
  refine ⟨hval, ?_⟩
  rw [hval]
  intro h
  have hx := congrArg CppVec3.x h
  norm_num at hx

/-- Claim C5: for the straight-line cubic with control points (0,0,0),
(1,0,0), (2,0,0), (3,0,0) the tangent is the constant vector (3,0,0) at
every parameter t in the interval from 0 to 1. -/
theorem straight_line_cubic_tangent_constant (t : ℚ) (h0 : 0 ≤ t) (h1 : t ≤ 1) :
    CppCubicBezier.tangent ⟨⟨0, 0, 0⟩, ⟨1, 0, 0⟩, ⟨2, 0, 0⟩, ⟨3, 0, 0⟩⟩ t =
      ⟨3, 0, 0⟩ := by
  ext <;>
    simp [CppCubicBezier.tangent, CppCubicBezier.bernstein_poly_d1] <;> ring

/-- Witness for claim C5 at the concrete parameter t = 1/2. -/
theorem straight_line_cubic_tangent_constant_witness :
    (0 : ℚ) ≤ 1 / 2 ∧ (1 / 2 : ℚ) ≤ 1 ∧
      CppCubicBezier.tangent ⟨⟨0, 0, 0⟩, ⟨1, 0, 0⟩, ⟨2, 0, 0⟩, ⟨3, 0, 0⟩⟩ (1 / 2) =
        ⟨3, 0, 0⟩ :=
  ⟨by norm_num, by norm_num,
    straight_line_cubic_tangent_constant (1 / 2) (by norm_num) (by norm_num)⟩

/-- Claim C7: lerp equals a + (b - a) * factor for every factor, with no
clamping; at factor 0 it returns a, at factor 1 it returns b, and at
factor 1/2 it returns the componentwise midpoint. -/
theorem lerp_formula_and_boundary (a b : CppVec3) (factor : ℚ) :
    a.lerp b factor = a + (b - a) * factor ∧ a.lerp b 0 = a ∧ a.lerp b 1 = b ∧
      a.lerp b (1 / 2) = ⟨(a.x + b.x) / 2, (a.y + b.y) / 2, (a.z + b.z) / 2⟩ := by
  refine ⟨rfl, ?_, ?_, ?_⟩ <;>
    · ext <;> simp [CppVec3.lerp] <;> ring

/-- Claim C8: evaluating point or tangent leaves the curve unchanged (the
state-passing views return the receiver as the post-call object), and the
evaluators are pure functions of the control points and the parameter: two
curves with equal control points evaluate equally at every t. -/
theorem curve_evaluation_pure_and_frame (c c2 : CppCubicBezier)
    (q q2 : CppQuadBezier) (t : ℚ)
    (hc0 : c.p0 = c2.p0) (hc1 : c.p1 = c2.p1) (hc2 : c.p2 = c2.p2)
    (hc3 : c.p3 = c2.p3)
    (hq0 : q.p0 = q2.p0) (hq1 : q.p1 = q2.p1) (hq2 : q.p2 = q2.p2) :
    (c.pointSt t).2 = c ∧ (c.tangentSt t).2 = c ∧
      (q.pointSt t).2 = q ∧ (q.tangentSt t).2 = q ∧
      c.point t = c2.point t ∧ c.tangent t = c2.tangent t ∧
      q.point t = q2.point t ∧ q.tangent t = q2.tangent t := by
  have hc : c = c2 := CppCubicBezier.ext hc0 hc1 hc2 hc3
  have hq : q = q2 := CppQuadBezier.ext hq0 hq1 hq2
  subst hc
  subst hq
  exact ⟨rfl, rfl, rfl, rfl, rfl, rfl, rfl, rfl⟩

/-- Witness for claim C8 at a concrete cubic curve, a concrete quadratic
curve and t = 1/2. -/
theorem curve_evaluation_pure_and_frame_witness :
    ((⟨⟨0, 0, 0⟩, ⟨0, 1, 0⟩, ⟨1, 1, 0⟩, ⟨1, 0, 0⟩⟩ : CppCubicBezier).pointSt
        (1 / 2)).2 = ⟨⟨0, 0, 0⟩, ⟨0, 1, 0⟩, ⟨1, 1, 0⟩, ⟨1, 0, 0⟩⟩ ∧
      ((⟨⟨0, 0, 0⟩, ⟨0, 1, 0⟩, ⟨1, 1, 0⟩, ⟨1, 0, 0⟩⟩ : CppCubicBezier).tangentSt
        (1 / 2)).2 = ⟨⟨0, 0, 0⟩, ⟨0, 1, 0⟩, ⟨1, 1, 0⟩, ⟨1, 0, 0⟩⟩ ∧
      ((⟨⟨0, 0, 0⟩, ⟨1, 1, 0⟩, ⟨2, 0, 0⟩⟩ : CppQuadBezier).pointSt (1 / 2)).2 =
        ⟨⟨0, 0, 0⟩, ⟨1, 1, 0⟩, ⟨2, 0, 0⟩⟩ ∧
      ((⟨⟨0, 0, 0⟩, ⟨1, 1, 0⟩, ⟨2, 0, 0⟩⟩ : CppQuadBezier).tangentSt (1 / 2)).2 =
        ⟨⟨0, 0, 0⟩, ⟨1, 1, 0⟩, ⟨2, 0, 0⟩⟩ ∧
      (⟨⟨0, 0, 0⟩, ⟨0, 1, 0⟩, ⟨1, 1, 0⟩, ⟨1, 0, 0⟩⟩ : CppCubicBezier).point (1 / 2) =
        (⟨⟨0, 0, 0⟩, ⟨0, 1, 0⟩, ⟨1, 1, 0⟩, ⟨1, 0, 0⟩⟩ : CppCubicBezier).point (1 / 2) ∧
      (⟨⟨0, 0, 0⟩, ⟨0, 1, 0⟩, ⟨1, 1, 0⟩, ⟨1, 0, 0⟩⟩ : CppCubicBezier).tangent (1 / 2) =
        (⟨⟨0, 0, 0⟩, ⟨0, 1, 0⟩, ⟨1, 1, 0⟩, ⟨1, 0, 0⟩⟩ : CppCubicBezier).tangent (1 / 2) ∧
      (⟨⟨0, 0, 0⟩, ⟨1, 1, 0⟩, ⟨2, 0, 0⟩⟩ : CppQuadBezier).point (1 / 2) =
        (⟨⟨0, 0, 0⟩, ⟨1, 1, 0⟩, ⟨2, 0, 0⟩⟩ : CppQuadBezier).point (1 / 2) ∧
      (⟨⟨0, 0, 0⟩, ⟨1, 1, 0⟩, ⟨2, 0, 0⟩⟩ : CppQuadBezier).tangent (1 / 2) =
        (⟨⟨0, 0, 0⟩, ⟨1, 1, 0⟩, ⟨2, 0, 0⟩⟩ : CppQuadBezier).tangent (1 / 2) :=
  curve_evaluation_pure_and_frame _ _ _ _ (1 / 2) rfl rfl rfl rfl rfl rfl rfl

/-- Claim C3: when the magnitude of a vector is exactly zero, normalize
returns the vector unchanged for every target length; the division by the
magnitude is never performed. -/
theorem normalize_zero_magnitude_noop (a : CppVec3R) (length : ℝ)
    (h : a.magnitude = 0) : a.normalize length = a := by
  simp [CppVec3R.normalize, h]

/-- Witness for claim C3 at the zero vector with target length 5. -/
theorem normalize_zero_magnitude_noop_witness :
    CppVec3R.magnitude ⟨0, 0, 0⟩ = 0 ∧
      CppVec3R.normalize ⟨0, 0, 0⟩ 5 = ⟨0, 0, 0⟩ :=
  ⟨by simp [CppVec3R.magnitude],
    normalize_zero_magnitude_noop ⟨0, 0, 0⟩ 5 (by simp [CppVec3R.magnitude])⟩

/-- Scaling a vector by a factor scales its magnitude by the absolute
value of the factor. -/
theorem CppVec3R.magnitude_smul (v : CppVec3R) (f : ℝ) :
    (v * f).magnitude = |f| * v.magnitude := by
  unfold CppVec3R.magnitude
  rw [show (v * f).x * (v * f).x + (v * f).y * (v * f).y + (v * f).z * (v * f).z
        = f ^ 2 * (v.x * v.x + v.y * v.y + v.z * v.z) by
      simp only [CppVec3R.rsmul_x, CppVec3R.rsmul_y, CppVec3R.rsmul_z]; ring]
  rw [Real.sqrt_mul (sq_nonneg f), Real.sqrt_sq_eq_abs]

/-- Claim C6, amended: for a vector with nonzero magnitude, normalize
returns the vector scaled by targetLength / magnitude, and the magnitude
of the result equals the absolute value of targetLength (for a negative
target length the result magnitude is -targetLength, not targetLength). -/
theorem normalize_scales_to_abs_length (a : CppVec3R) (length : ℝ)
    (h : a.magnitude ≠ 0) :
    a.normalize length = a * (length / a.magnitude) ∧
      (a.normalize length).magnitude = |length| := by
  have hpos : 0 < a.magnitude :=
    lt_of_le_of_ne (Real.sqrt_nonneg _) (Ne.symm h)
  have hdef : a.normalize length = a * (length / a.magnitude) := by
    simp [CppVec3R.normalize, h]
  refine ⟨hdef, ?_⟩
  rw [hdef, CppVec3R.magnitude_smul, abs_div, abs_of_pos hpos,
    div_mul_cancel₀ _ (ne_of_gt hpos)]

/-- Witness for claim C6 at the unit vector (1,0,0) with target length 2. -/
theorem normalize_scales_to_abs_length_witness :
    CppVec3R.magnitude ⟨1, 0, 0⟩ ≠ 0 ∧
      ((⟨1, 0, 0⟩ : CppVec3R).normalize 2 =
          (⟨1, 0, 0⟩ : CppVec3R) * (2 / CppVec3R.magnitude ⟨1, 0, 0⟩) ∧
        ((⟨1, 0, 0⟩ : CppVec3R).normalize 2).magnitude = |(2 : ℝ)|) :=
  ⟨by simp [CppVec3R.magnitude],
    normalize_scales_to_abs_length ⟨1, 0, 0⟩ 2 (by simp [CppVec3R.magnitude])⟩

/-- Claim C6, counterexample: at the vector (1,0,0) with target length
-5 the normalized vector is (-5,0,0), whose magnitude is 5 and not the
target length -5, so the claim fails for negative target lengths. -/
theorem normalize_negative_length_counterexample :
    ((⟨1, 0, 0⟩ : CppVec3R).normalize (-5)).magnitude ≠ -5 ∧
      ((⟨1, 0, 0⟩ : CppVec3R).normalize (-5)).magnitude = 5 := by
  have hm : CppVec3R.magnitude ⟨1, 0, 0⟩ = 1 := by simp [CppVec3R.magnitude]
  have hn : (⟨1, 0, 0⟩ : CppVec3R).normalize (-5) = ⟨-5, 0, 0⟩ := by
    ext <;> simp [CppVec3R.normalize, hm, CppVec3R.smul] <;> norm_num
  have hmag : CppVec3R.magnitude ⟨-5, 0, 0⟩ = 5 := by
    unfold CppVec3R.magnitude
    rw [show ((-5 : ℝ)) * (-5) + 0 * 0 + 0 * 0 = 5 ^ 2 by norm_num,
      Real.sqrt_sq (by norm_num : (0 : ℝ) ≤ 5)]
  exact ⟨by rw [hn, hmag]; norm_num, by rw [hn, hmag]⟩
